import Mathlib

/-
  Verification of the mathprob problem-instance generators.

  The Go sources are shallowly embedded: Go ints become Lean Int (the
  values involved stay far below 2^63, so overflow is not modelled),
  the process-wide random source becomes explicit streams of natural
  numbers (one stream per rand call site, indexed by loop iteration;
  rand.Int and rand.Intn return non-negative values, so a Nat stream
  covers every behaviour of the real source), rejection-sampling loops
  take a fuel argument (none = the loop has not terminated within fuel,
  or a Go runtime panic occurred), and functions returning (T, error)
  become Except String (Option T) where .error is exactly a Go error
  return and .ok none covers divergence and panics.
-/

namespace Mathprob

-- ---------------------------------------------------------------------------
-- helpers.go
-- ---------------------------------------------------------------------------

/-- Structural floor of log base 10, with explicit fuel (the first argument);
fuel n is always enough for input n, and the definition reduces in the
kernel.  This models int(math.Log10(float64 n)) for n ≥ 1. -/
def log10aux : Nat → Nat → Nat
  | 0, _ => 0
  | fuel + 1, n => if n < 10 then 0 else 1 + log10aux fuel (n / 10)

/-- Floor of log base 10 of a natural number (0 for inputs below 10). -/
def log10 (n : Nat) : Nat := log10aux n n

/-- helpers.NbDigits: the number of base-10 digits of n; 0 has one digit and
a negative number gets one extra digit for the unary minus sign
(the source computes 2 + int(log10 |n|) in that case). -/
def NbDigits (n : Int) : Int :=
  if n = 0 then 1
  else if n < 0 then 2 + (log10 n.natAbs : Int)
  else 1 + (log10 n.natAbs : Int)

/-- 10^k computed structurally so that it reduces in the kernel. -/
def pow10 : Nat → Int
  | 0 => 1
  | n + 1 => 10 * pow10 n

/-- int(math.Pow(10, k)) for an integer exponent k: the float value is
truncated toward zero, so every negative exponent yields 0. -/
def ipow10 (k : Int) : Int := if 0 ≤ k then pow10 k.toNat else 0

/-- int(math.Pow(10, k) - 1): the subtraction happens on the float before
truncation, so for k < 0 the value 10^k - 1 lies in (-1, 0) and truncates
to 0. -/
def ipow10m1 (k : Int) : Int := if 0 ≤ k then pow10 k.toNat - 1 else 0

/-- helpers.RandN: lower := int(10^(n-1)); upper := int(10^n);
return lower + rand.Int() % (upper - lower).  rand.Int() is a non-negative
random integer, modelled by the parameter r.  When upper - lower is zero
(every n < 0) the Go modulo operation panics, modelled as none. -/
def RandN (n : Int) (r : Nat) : Option Int :=
  let lower := ipow10 (n - 1)
  let upper := ipow10 n
  if upper - lower = 0 then none
  else some (lower + (r : Int) % (upper - lower))

/-- helpers.FindInt: membership of an int in a slice of ints.  The function
body is not among the provided sources; it is the integer analogue of
helpers.Find (linear search returning true iff the item occurs). -/
def FindInt (item : Nat) (container : List Nat) : Bool := container.contains item

/-- Sprintf "%v" / strconv.FormatInt applied to an int. -/
def FormatInt (n : Int) : String := Int.repr n

-- ---------------------------------------------------------------------------
-- problemJSON (mathtools/problem JSON instances)
-- ---------------------------------------------------------------------------

/-- problemJSON: a problem instance with its type tag, the argument tokens
shown to the student (masked tokens are the string "?") and the full
solution tokens. -/
structure problemJSON where
  Probtype : String
  Args : List String
  Solution : List String
deriving DecidableEq

-- ---------------------------------------------------------------------------
-- basicoperation.go
-- ---------------------------------------------------------------------------

/-- Basic operation type 0: the result is masked. -/
def BORESULT : Int := 0

/-- Basic operation type 1: one random operand is masked. -/
def BOOPERAND : Int := 1

/-- basicOperation: operator over nboperands operands of nbdigitsop digits
each, with nbdigitsrslt digits requested for the result. -/
structure basicOperation where
  botype : Int
  operator : String
  nboperands : Int
  nbdigitsop : Int
  nbdigitsrslt : Int

/-- The feasibility switch at the top of basicOperation.generateJSONProblem;
some msg is returned exactly when the Go code returns an error. -/
def boCheck (bo : basicOperation) : Option String :=
  if bo.operator = "+" then
    if NbDigits (bo.nboperands * ipow10m1 bo.nbdigitsop) < bo.nbdigitsrslt ∨
       NbDigits (bo.nboperands * ipow10 (bo.nbdigitsop - 1)) > bo.nbdigitsrslt then
      some "It is not possible to generate summations with these digits"
    else none
  else if bo.operator = "-" then
    if NbDigits ((bo.nboperands - 1) * ipow10 (1 + bo.nbdigitsop)) < bo.nbdigitsrslt ∨
       1 > bo.nbdigitsrslt then
      some "It is not possible to generate subtractions with these digits"
    else none
  else if bo.operator = "*" then
    if bo.nboperands * bo.nbdigitsop < bo.nbdigitsrslt ∨
       1 + bo.nboperands * (bo.nbdigitsop - 1) > bo.nbdigitsrslt then
      some "It is not possible to generate multiplications with these digits"
    else none
  else if bo.operator = "/" then
    if bo.nboperands > 2 then some "Divisions can consist only of two items"
    else if bo.nbdigitsrslt ≠ 1 then some "Divisions can only generate results with 1 digit"
    else none
  else none

/-- One step of the accumulation switch inside the sampling loop: the
operator applied to the running result and the next operand.  Go integer
division truncates toward zero, hence Int.tdiv. -/
def evalStep (op : String) (acc v : Int) : Int :=
  if op = "+" then acc + v
  else if op = "-" then acc - v
  else if op = "*" then acc * v
  else if op = "/" then Int.tdiv acc v
  else acc

/-- Left-to-right evaluation of the operator over the operands, exactly as
the loop in generateJSONProblem: the result starts at the first operand and
each further operand is folded in with evalStep. -/
def boEval (op : String) (ops : List Int) : Int :=
  match ops with
  | [] => 0
  | o :: rest => rest.foldl (evalStep op) o

/-- One iteration of the rejection-sampling loop: draw nboperands random
numbers of nbdigitsop digits (iteration t uses stream row t) and compute
the running result. -/
def boIter (bo : basicOperation) (sOps : Nat → Nat → Nat) (t : Nat) :
    Option (List Int × Int) :=
  match (List.range bo.nboperands.toNat).mapM (fun i => RandN bo.nbdigitsop (sOps t i)) with
  | none => none
  | some ops => some (ops, boEval bo.operator ops)

/-- The rejection-sampling loop of generateJSONProblem: repeat until the
result has exactly nbdigitsrslt digits and is strictly positive. -/
def boLoop (bo : basicOperation) (sOps : Nat → Nat → Nat) : Nat → Nat →
    Option (List Int × Int)
  | _, 0 => none
  | t, fuel + 1 =>
    match boIter bo sOps t with
    | none => none
    | some (ops, res) =>
      if NbDigits res = bo.nbdigitsrslt ∧ 0 < res then some (ops, res)
      else boLoop bo sOps (t + 1) fuel

/-- basicOperation.generateJSONProblem.  The random position pos for the
type-1 mask uses one draw (sPos); each sampling iteration uses a fresh row
of sOps.  A nonpositive number of operands makes the Go code panic
(modulo by zero computing pos, or an out-of-range slice index), modelled
as .ok none. -/
def boGen (bo : basicOperation) (sPos : Nat) (sOps : Nat → Nat → Nat) (fuel : Nat) :
    Except String (Option problemJSON) :=
  match boCheck bo with
  | some e => .error e
  | none =>
    if bo.nboperands ≤ 0 then .ok none
    else
      let pos : Int := 1 + (sPos : Int) % bo.nboperands
      match boLoop bo sOps 0 fuel with
      | none => .ok none
      | some (ops, res) =>
        let solution := bo.operator :: (ops.map FormatInt ++ [FormatInt res])
        let args :=
          if bo.botype = BOOPERAND then solution.set pos.toNat "?"
          else solution.set (1 + bo.nboperands).toNat "?"
        .ok (some ⟨"BasicOperation", args, solution⟩)

-- ---------------------------------------------------------------------------
-- divisions.go
-- ---------------------------------------------------------------------------

/-- division: requested digit counts for dividend, divisor and quotient. -/
structure division where
  nbdvdigits : Int
  nbdrdigits : Int
  nbqdigits : Int

/-- The two clamping steps at the top of division.generateJSONProblem:
a quotient digit count below nbdvdigits - nbdrdigits is raised to that
bound, then a count above nbdvdigits - nbdrdigits + 1 is lowered to that
bound (each with a logged warning, never an error).  Since the raised
value never exceeds the upper bound, the two sequential clamps of the
source equal this three-way case split. -/
def divClampQ (div : division) : Int :=
  if div.nbqdigits < div.nbdvdigits - div.nbdrdigits then
    div.nbdvdigits - div.nbdrdigits
  else if div.nbqdigits > div.nbdvdigits - div.nbdrdigits + 1 then
    div.nbdvdigits - div.nbdrdigits + 1
  else div.nbqdigits

/-- One iteration of the division sampling loop: draw the dividend and the
divisor with their digit counts and divide (Go division truncates toward
zero and panics on a zero divisor, modelled as none). -/
def divIter (div : division) (sD sR : Nat → Nat) (t : Nat) :
    Option (Int × Int × Int) :=
  match RandN div.nbdvdigits (sD t), RandN div.nbdrdigits (sR t) with
  | some dividend, some divisor =>
    if divisor = 0 then none
    else some (dividend, divisor, Int.tdiv dividend divisor)
  | _, _ => none

/-- The division sampling loop: repeat until the quotient has exactly q
digits and is nonzero. -/
def divLoop (div : division) (q : Int) (sD sR : Nat → Nat) : Nat → Nat →
    Option (Int × Int × Int)
  | _, 0 => none
  | t, fuel + 1 =>
    match divIter div sD sR t with
    | none => none
    | some (dividend, divisor, quotient) =>
      if NbDigits quotient = q ∧ quotient ≠ 0 then some (dividend, divisor, quotient)
      else divLoop div q sD sR (t + 1) fuel

/-- division.generateJSONProblem: clamp the quotient digit count, sample
until it is met, and return dividend, divisor, quotient and remainder as
the solution with quotient and remainder masked.  The Go function never
returns a non-nil error. -/
def divGen (div : division) (sD sR : Nat → Nat) (fuel : Nat) :
    Except String (Option problemJSON) :=
  match divLoop div (divClampQ div) sD sR 0 fuel with
  | none => .ok none
  | some (dividend, divisor, quotient) =>
    .ok (some ⟨"Division", [FormatInt dividend, FormatInt divisor, "?", "?"],
      [FormatInt dividend, FormatInt divisor, FormatInt quotient,
       FormatInt (dividend - divisor * quotient)]⟩)

-- ---------------------------------------------------------------------------
-- sequence (generateJSONProblem revision)
-- ---------------------------------------------------------------------------

/-- Sequence type: no endpoint shown. -/
def SEQNONE : Int := 0

/-- Sequence type: first item shown. -/
def SEQFIRST : Int := 1

/-- Sequence type: last item shown. -/
def SEQLAST : Int := 2

/-- Sequence type: both endpoints shown. -/
def SEQBOTH : Int := 3

/-- sequence: type, number of items and inclusive bounds. -/
structure sequence where
  seqtype : Int
  nbitems : Int
  geq : Int
  leq : Int

/-- The first number of the run: number1 := geq + rand % (2 + leq -
nbitems - geq) with the rand draw modelled by s1. -/
def seqNumber1 (seq : sequence) (s1 : Nat) : Int :=
  seq.geq + (s1 : Int) % (2 + seq.leq - seq.nbitems - seq.geq)

/-- The position of the hint: rand % nbitems when nbitems is at most 2,
otherwise 1 + rand % (nbitems - 2), with the rand draw modelled by s2. -/
def seqPos (seq : sequence) (s2 : Nat) : Int :=
  if seq.nbitems ≤ 2 then (s2 : Int) % seq.nbitems
  else 1 + (s2 : Int) % (seq.nbitems - 2)

/-- The solution slice of the sequence loop: position idx holds the print
of number1 + idx. -/
def seqSol (seq : sequence) (s1 : Nat) : List String :=
  (List.range seq.nbitems.toNat).map
    (fun (idx : Nat) => FormatInt (seqNumber1 seq s1 + (idx : Int)))

/-- The args slice of the sequence loop: the per-index switch in the
source order case 0, case pos, case nbitems - 1, default. -/
def seqArgs (seq : sequence) (s1 s2 : Nat) : List String :=
  (List.range seq.nbitems.toNat).map (fun idx =>
    if idx = 0 then
      (if seq.seqtype = SEQNONE ∨ seq.seqtype = SEQLAST then "?"
       else (seqSol seq s1).getD idx "")
    else if (idx : Int) = seqPos seq s2 then
      (if seq.seqtype = SEQNONE then (seqSol seq s1).getD idx "" else "?")
    else if idx = seq.nbitems.toNat - 1 then
      (if seq.seqtype = SEQNONE ∨ seq.seqtype = SEQFIRST then "?"
       else (seqSol seq s1).getD idx "")
    else "?")

/-- sequence.generateJSONProblem.  s1 models the draw for the first number
of the run, s2 the draw for the hint position.  After the feasibility
check the modulus 2 + leq - nbitems - geq is at least 1, so that draw
cannot panic; a nonpositive nbitems then makes the Go code panic (modulo
by zero for nbitems = 0, a negative make length otherwise), modelled as
.ok none. -/
def seqGen (seq : sequence) (s1 s2 : Nat) : Except String (Option problemJSON) :=
  if 1 + seq.leq - seq.geq < seq.nbitems then
    .error "It is not possible to fit these numbers in the range"
  else if seq.nbitems ≤ 0 then .ok none
  else .ok (some ⟨"Sequence", seqArgs seq s1 s2, seqSol seq s1⟩)

-- ---------------------------------------------------------------------------
-- multiplication_table.go
-- ---------------------------------------------------------------------------

/-- Multiplication table type 0: the product of every row is masked. -/
def MTRESULT : Int := 0

/-- Multiplication table type 1: one factor of every row is masked. -/
def MTOPERAND : Int := 1

/-- multiplicationTable: type, digit count of the fixed factor, row range,
inverted-presentation flag and sorted flag. -/
structure multiplicationTable where
  mttype : Int
  nbdigits : Int
  geq : Int
  leq : Int
  inv : Bool
  sorted : Bool

/-- The swap closure handed to rand.Shuffle: positions i and j of the slice
exchange their values (both sides are read before either is written). -/
def swapList (l : List Nat) (i j : Nat) : List Nat :=
  (l.set i (l.getD j 0)).set j (l.getD i 0)

/-- rand.Shuffle's Fisher-Yates walk: for i from the first argument down
to 1, swap position i with a random position in [0, i]. -/
def shuffleAux (s : Nat → Nat) : Nat → List Nat → List Nat
  | 0, l => l
  | i + 1, l => shuffleAux s i (swapList l (i + 1) (s (i + 1) % (i + 2)))

/-- The shuffle of the fixed slice [0, ..., 9] performed when sorted is
false: rand.Shuffle(len(identity), swap) with len(identity) = 10. -/
def shuffle10 (s : Nat → Nat) : List Nat := shuffleAux s 9 (List.range 10)

/-- The solution slice as filled by the row loop, before any shuffling:
the factor first, then for every row the two factors (swapped with
probability one half when inv is set, using one draw of sI per row) and
their product. -/
def mtBase (mt : multiplicationTable) (factor : Int) (sI : Nat → Nat) : List String :=
  FormatInt factor ::
    (List.range (1 + mt.leq - mt.geq).toNat).flatMap (fun (idx : Nat) =>
      let i : Int := mt.geq + (idx : Int)
      if mt.inv ∧ sI idx % 100 < 50 then
        [FormatInt i, FormatInt factor, FormatInt (factor * i)]
      else
        [FormatInt factor, FormatInt i, FormatInt (factor * i)])

/-- The row-permutation loop run when sorted is false: for i in [0, 10) the
triple at row i is replaced by the triple at row ids[i] of a copy of the
slice.  Position idx of row i and offset off is 1 + 3i + off, so positions
1 through 30 are rewritten and every other position is left unchanged. -/
def mtPermute (ids : List Nat) (l : List String) : List String :=
  (List.range l.length).map (fun idx =>
    if 1 ≤ idx ∧ idx < 31 then
      l.getD (1 + 3 * ids.getD ((idx - 1) / 3) 0 + (idx - 1) % 3) ""
    else l.getD idx "")

/-- The args slice of the multiplication table loop over the (possibly
shuffled) solution sol: row i occupies positions 1 + 3i, 2 + 3i, 3 + 3i
with offsets 0, 1, 2; for the result type offset 2 is masked, for the
operand type one draw of sM per row masks offset 0 or offset 1. -/
def mtArgs (mt : multiplicationTable) (sM : Nat → Nat) (sol : List String) : List String :=
  (List.range sol.length).map (fun idx =>
    if idx = 0 then sol.getD 0 ""
    else if mt.mttype = MTRESULT then
      (if (idx - 1) % 3 = 2 then "?" else sol.getD idx "")
    else if sM ((idx - 1) / 3) % 100 < 50 then
      (if (idx - 1) % 3 = 0 then "?" else sol.getD idx "")
    else
      (if (idx - 1) % 3 = 1 then "?" else sol.getD idx ""))

/-- Row i of a multiplication-table token slice: the triple stored at
positions 1 + 3i, 2 + 3i and 3 + 3i. -/
def mtRow (l : List String) (i : Nat) : List String :=
  [l.getD (1 + 3 * i) "", l.getD (2 + 3 * i) "", l.getD (3 + 3 * i) ""]

/-- multiplicationTable.generateJSONProblem.  sF feeds the factor draw, sI
the per-row inversion draws, sS the shuffle and sM the per-row mask draws.
A negative number of rows makes make([]string, 1+3*rows) panic, and with
sorted false fewer than 10 rows makes the permutation loop index out of
range; both are modelled as none (the Go function otherwise always
returns a nil error). -/
def mtGen (mt : multiplicationTable) (sF : Nat) (sI sS sM : Nat → Nat) :
    Option problemJSON :=
  match RandN mt.nbdigits sF with
  | none => none
  | some factor =>
    if 1 + mt.leq - mt.geq < 0 then none
    else if mt.sorted then
      some ⟨"MultiplicationTable", mtArgs mt sM (mtBase mt factor sI),
        mtBase mt factor sI⟩
    else if 1 + mt.leq - mt.geq < 10 then none
    else
      some ⟨"MultiplicationTable",
        mtArgs mt sM (mtPermute (shuffle10 sS) (mtBase mt factor sI)),
        mtPermute (shuffle10 sS) (mtBase mt factor sI)⟩

-- ---------------------------------------------------------------------------
-- mystery_operation.go
-- ---------------------------------------------------------------------------

/-- mysteryOperation: digit and masked-digit counts for both operands and
the answer, plus the operator. -/
structure mysteryOperation where
  nbdigits1 : Int
  nbdigits2 : Int
  nbmasked1 : Int
  nbmasked2 : Int
  nbdigitsanswer : Int
  nbmaskedanswer : Int
  operator : String

/-- The verification block at the top of mysteryOperation.generateJSONProblem;
some msg is returned exactly when the Go code returns an error. -/
def moCheck (mo : mysteryOperation) : Option String :=
  if mo.nbmasked1 > mo.nbdigits1 then
    some "There are more masked digits in the first operand than digits in it"
  else if mo.nbmasked2 > mo.nbdigits2 then
    some "There are more masked digits in the second operand than digits in it"
  else if mo.nbmaskedanswer > mo.nbdigitsanswer then
    some "There are more masked digits in the answer than digits in it"
  else if mo.operator = "+" then
    if mo.nbdigitsanswer < max mo.nbdigits1 mo.nbdigits2 ∨
       mo.nbdigitsanswer > 1 + max mo.nbdigits1 mo.nbdigits2 then
      some "It is not possible to generate a sum with these digits"
    else none
  else if mo.operator = "-" then
    if mo.nbdigitsanswer < 1 ∨ mo.nbdigitsanswer > max mo.nbdigits1 mo.nbdigits2 then
      some "It is not possible to generate a subtraction with these digits"
    else none
  else if mo.operator = "*" then
    if mo.nbdigitsanswer < mo.nbdigits1 + mo.nbdigits2 - 1 ∨
       mo.nbdigitsanswer > mo.nbdigits1 + mo.nbdigits2 then
      some "It is not possible to generate a multiplication with these digits"
    else none
  else if mo.operator = "/" then
    if mo.nbdigitsanswer < 1 ∨
       mo.nbdigitsanswer > max mo.nbdigits1 mo.nbdigits2 - min mo.nbdigits1 mo.nbdigits2 then
      some "It is not possible to generate a division with these digits"
    else none
  else none

/-- The integer value of a digit string built by concatenating random
decimal digits; helpers.Atoi parses it back to exactly this value (leading
zeros are dropped by the parse). -/
def digitsVal (ds : List Nat) : Int := ds.foldl (fun acc d => 10 * acc + (d : Int)) 0

/-- helpers.Atoi applied to a single Go byte (indexing a Go string yields a
byte): the type switch of Atoi covers int, float32, float64 and string
only, so a byte falls through and the value 0 is returned together with an
error that the caller discards. -/
def AtoiByte (_b : Nat) : Int := 0

/-- The outcome of one iteration of the mystery-operation sampling loop. -/
inductive MoStep where
  | panicked
  | retry
  | done (ds1 ds2 : List Nat) (ans : Int)
deriving DecidableEq

/-- One iteration of the mystery-operation sampling loop: draw the digits
of both operands (digits[rand.Intn(10)] per position), skip the draw when
the operator is - or / and the second operand exceeds the first, compute
the answer and accept when its printed length equals nbdigitsanswer.
A zero second operand under / makes the Go division panic; an operator
outside the four arithmetic ones can never produce an instance (the
answer string stays empty and the masking phase panics), so both are
modelled as panicked. -/
def moIter (mo : mysteryOperation) (sOp1 sOp2 : Nat → Nat → Nat) (t : Nat) : MoStep :=
  let ds1 := (List.range mo.nbdigits1.toNat).map (fun i => sOp1 t i % 10)
  let ds2 := (List.range mo.nbdigits2.toNat).map (fun i => sOp2 t i % 10)
  let op1 := digitsVal ds1
  let op2 := digitsVal ds2
  if (mo.operator = "-" ∨ mo.operator = "/") ∧ op2 > op1 then .retry
  else if mo.operator = "/" ∧ op2 = 0 then .panicked
  else if mo.operator = "+" ∨ mo.operator = "-" ∨ mo.operator = "*" ∨ mo.operator = "/" then
    let ans := if mo.operator = "+" then op1 + op2
               else if mo.operator = "-" then op1 - op2
               else if mo.operator = "*" then op1 * op2
               else Int.tdiv op1 op2
    if ((FormatInt ans).length : Int) = mo.nbdigitsanswer then .done ds1 ds2 ans
    else .retry
  else .panicked

/-- The mystery-operation sampling loop with fuel. -/
def moLoop (mo : mysteryOperation) (sOp1 sOp2 : Nat → Nat → Nat) : Nat → Nat →
    Option (List Nat × List Nat × Int)
  | _, 0 => none
  | t, fuel + 1 =>
    match moIter mo sOp1 sOp2 t with
    | .panicked => none
    | .done ds1 ds2 ans => some (ds1, ds2, ans)
    | .retry => moLoop mo sOp1 sOp2 (t + 1) fuel

/-- The body of one mask-position iteration: draw idx := rand.Intn(nbdigits)
(the k-th draw of stream s) and append it to the accumulated positions if
it is not already among them. -/
def maskStep (nbdigits : Int) (s : Nat → Nat) (acc : List Nat) (k : Nat) : List Nat :=
  if FindInt (s k % nbdigits.toNat) acc then acc else acc ++ [s k % nbdigits.toNat]

/-- One mask-position selection loop of generateJSONProblem: repeatedly
draw a position with rand.Intn(nbdigits), append it if it is new, and exit
only after the append when the list length equals the requested mask
count. -/
def maskLoopAux (nbdigits nbmasked : Int) (s : Nat → Nat) : List Nat → Nat → Nat →
    Option (List Nat)
  | _, _, 0 => none
  | acc, k, fuel + 1 =>
    if ((maskStep nbdigits s acc k).length : Int) = nbmasked then
      some (maskStep nbdigits s acc k)
    else maskLoopAux nbdigits nbmasked s (maskStep nbdigits s acc k) (k + 1) fuel

/-- The mask-position selection loop including the rand.Intn panic for a
nonpositive digit count. -/
def maskLoop (nbdigits nbmasked : Int) (s : Nat → Nat) (fuel : Nat) :
    Option (List Nat) :=
  if nbdigits ≤ 0 then none
  else maskLoopAux nbdigits nbmasked s [] 0 fuel

/-- The solution slice of a mystery operation: the operator, the three
digit counts, then every digit token of both operands and the answer.
Each digit token is the print of helpers.Atoi applied to a string byte,
hence "0" (see AtoiByte). -/
def moSolution (mo : mysteryOperation) (ds1 ds2 : List Nat) (ans : Int) : List String :=
  [mo.operator, FormatInt mo.nbdigits1, FormatInt mo.nbdigits2,
   FormatInt mo.nbdigitsanswer] ++
  ds1.map (fun d => FormatInt (AtoiByte d)) ++
  ds2.map (fun d => FormatInt (AtoiByte d)) ++
  (List.range mo.nbdigitsanswer.toNat).map (fun i =>
    FormatInt (AtoiByte ((FormatInt ans).toList.getD i '0').toNat))

/-- The args loop of a mystery operation: a copy of the solution where the
chosen digit positions of the three fields are replaced by question
marks. -/
def moArgs (m1 m2 m3 : List Nat) (len1 len2 : Nat) (solution : List String) :
    List String :=
  (List.range solution.length).map (fun i =>
    if 4 ≤ i ∧ i < 4 + len1 ∧ FindInt (i - 4) m1 then "?"
    else if 4 + len1 ≤ i ∧ i < 4 + len1 + len2 ∧ FindInt (i - 4 - len1) m2 then "?"
    else if 4 + len1 + len2 ≤ i ∧ FindInt (i - 4 - len1 - len2) m3 then "?"
    else solution.getD i "")

/-- mysteryOperation.generateJSONProblem: verify the parameters, sample an
operation, pick the mask positions of the three fields and emit the token
lists. -/
def moGen (mo : mysteryOperation) (sOp1 sOp2 : Nat → Nat → Nat)
    (sm1 sm2 sm3 : Nat → Nat) (fuel : Nat) : Except String (Option problemJSON) :=
  match moCheck mo with
  | some e => .error e
  | none =>
    match moLoop mo sOp1 sOp2 0 fuel with
    | none => .ok none
    | some (ds1, ds2, ans) =>
      match maskLoop mo.nbdigits1 mo.nbmasked1 sm1 fuel,
            maskLoop mo.nbdigits2 mo.nbmasked2 sm2 fuel,
            maskLoop mo.nbdigitsanswer mo.nbmaskedanswer sm3 fuel with
      | some m1, some m2, some m3 =>
        .ok (some ⟨"MysteryOperation",
          moArgs m1 m2 m3 ds1.length ds2.length (moSolution mo ds1 ds2 ans),
          moSolution mo ds1 ds2 ans⟩)
      | _, _, _ => .ok none

/-- The masking rule in the words of the spec: a position is shown iff it
is position 0 and the type is first or both, or the last position and the
type is last or both, or the chosen position and the type is none. -/
def seqShownSpec (seqtype : Int) (pos n idx : Nat) : Prop :=
  (idx = 0 ∧ (seqtype = SEQFIRST ∨ seqtype = SEQBOTH)) ∨
  (idx = n - 1 ∧ (seqtype = SEQLAST ∨ seqtype = SEQBOTH)) ∨
  (idx = pos ∧ seqtype = SEQNONE)

instance (seqtype : Int) (pos n idx : Nat) : Decidable (seqShownSpec seqtype pos n idx) := by
  unfold seqShownSpec
  infer_instance

/-- The masking-shape invariant of a problem instance: args and solution
have the same length and every unmasked args token equals the solution
token at its position. -/
def maskShapeOK (p : problemJSON) : Prop :=
  p.Args.length = p.Solution.length ∧
  ∀ i : Nat, i < p.Args.length → p.Args.getD i "" ≠ "?" →
    p.Args.getD i "" = p.Solution.getD i ""

-- ---------------------------------------------------------------------------
-- Helper lemmas
-- ---------------------------------------------------------------------------

theorem pow10_eq_pow (n : Nat) : pow10 n = (10 : Int) ^ n := by
  induction n with
  | zero => rfl
  | succ m ih => rw [pow10, ih, pow_succ]; ring

theorem pow10_pos (n : Nat) : 0 < pow10 n := by
  rw [pow10_eq_pow]; positivity

theorem ipow10_nonneg (k : Int) : 0 ≤ ipow10 k := by
  unfold ipow10
  split
  · exact le_of_lt (pow10_pos _)
  · exact le_refl 0

theorem ipow10_le_ipow10 {a b : Int} (h : a ≤ b) : ipow10 a ≤ ipow10 b := by
  unfold ipow10
  split
  · rw [if_pos (le_trans (by assumption) h)]
    rw [pow10_eq_pow, pow10_eq_pow]
    exact pow_le_pow_right₀ (by norm_num) (by omega)
  · split
    · exact le_of_lt (pow10_pos _)
    · exact le_refl 0

theorem randN_nonneg {d : Int} {r : Nat} {v : Int} (h : RandN d r = some v) : 0 ≤ v := by
  unfold RandN at h
  by_cases hc : ipow10 d - ipow10 (d - 1) = 0
  · simp [hc] at h
  · simp only [hc, if_false, Option.some.injEq] at h
    have hmono : ipow10 (d - 1) ≤ ipow10 d := ipow10_le_ipow10 (by omega)
    have hpos : 0 < ipow10 d - ipow10 (d - 1) := by omega
    have hm : 0 ≤ (r : Int) % (ipow10 d - ipow10 (d - 1)) :=
      Int.emod_nonneg _ (by omega)
    have := ipow10_nonneg (d - 1)
    omega

theorem getD_map_range {α : Type} (f : Nat → α) {n i : Nat} (d : α) (h : i < n) :
    ((List.range n).map f).getD i d = f i := by
  rw [List.getD_eq_getElem?_getD, List.getElem?_map, List.getElem?_range h]
  rfl

theorem length_map_range {α : Type} (f : Nat → α) (n : Nat) :
    ((List.range n).map f).length = n := by
  simp

-- ---------------------------------------------------------------------------
-- Claim C8: RandN range and behaviour outside d ≥ 1
-- ---------------------------------------------------------------------------

/-- C8, counterexample.  The claim states that RandN(d) reports an error
for every d < 1, but helpers.RandN has no error result at all: at d = 0
it returns the plain value 0 (lower bound int(10^-1) = 0, upper bound
int(10^0) = 1, so lower + rand % 1 = 0). -/
theorem claim8_counterexample : RandN 0 0 = some 0 := rfl

/-- C8, amended.  For every d ≥ 1, RandN(d) returns an integer in
[10^(d-1), 10^d - 1].  For d < 1 no error is reported: at d = 0 the value
0 is returned, and for d < 0 the modulo by zero panics. -/
theorem claim8_randn_amended (d : Int) (r : Nat) :
    (1 ≤ d → ∃ v, RandN d r = some v ∧ ipow10 (d - 1) ≤ v ∧ v ≤ ipow10 d - 1) ∧
    (d = 0 → RandN d r = some 0) ∧
    (d < 0 → RandN d r = none) := by
  refine ⟨?_, ?_, ?_⟩
  · intro hd
    have hmono : ipow10 (d - 1) ≤ ipow10 d := ipow10_le_ipow10 (by omega)
    have h1 : ipow10 (d - 1) = pow10 (d - 1).toNat := by
      unfold ipow10; rw [if_pos (by omega)]
    have h2 : ipow10 d = pow10 d.toNat := by
      unfold ipow10; rw [if_pos (by omega)]
    have h3 : d.toNat = (d - 1).toNat + 1 := by omega
    have hlt : ipow10 (d - 1) < ipow10 d := by
      rw [h1, h2, h3, pow10]
      have := pow10_pos (d - 1).toNat
      omega
    have hne : ipow10 d - ipow10 (d - 1) ≠ 0 := by omega
    refine ⟨ipow10 (d - 1) + (r : Int) % (ipow10 d - ipow10 (d - 1)), ?_, ?_, ?_⟩
    · unfold RandN; rw [if_neg hne]
    · have := Int.emod_nonneg (r : Int) hne
      omega
    · have := Int.emod_lt_of_pos (r : Int) (show 0 < ipow10 d - ipow10 (d - 1) by omega)
      omega
  · intro hd
    subst hd
    unfold RandN ipow10
    norm_num [pow10, Int.emod_one]
  · intro hd
    have h1 : ipow10 d = 0 := by
      unfold ipow10; rw [if_neg (show ¬ (0 : Int) ≤ d by omega)]
    have h2 : ipow10 (d - 1) = 0 := by
      unfold ipow10; rw [if_neg (show ¬ (0 : Int) ≤ d - 1 by omega)]
    unfold RandN
    rw [h1, h2]
    simp

/-- Witness for the amended C8 theorem at d = 3, r = 7. -/
theorem claim8_witness :
    ∃ v, RandN 3 7 = some v ∧ ipow10 2 ≤ v ∧ v ≤ ipow10 3 - 1 :=
  (claim8_randn_amended 3 7).1 (by decide)

-- ---------------------------------------------------------------------------
-- Claim C1: basic operation solution correctness
-- ---------------------------------------------------------------------------

theorem boIter_some {bo : basicOperation} {sOps : Nat → Nat → Nat} {t : Nat}
    {ops : List Int} {res : Int} (h : boIter bo sOps t = some (ops, res)) :
    res = boEval bo.operator ops := by
  unfold boIter at h
  cases hm : (List.range bo.nboperands.toNat).mapM
      (fun i => RandN bo.nbdigitsop (sOps t i)) with
  | none => rw [hm] at h; exact absurd h (by simp)
  | some ops0 =>
    rw [hm] at h
    cases h
    rfl

theorem boLoop_some {bo : basicOperation} {sOps : Nat → Nat → Nat}
    {t fuel : Nat} {ops : List Int} {res : Int}
    (h : boLoop bo sOps t fuel = some (ops, res)) :
    res = boEval bo.operator ops ∧ NbDigits res = bo.nbdigitsrslt ∧ 0 < res := by
  induction fuel generalizing t with
  | zero => exact absurd h (by simp [boLoop])
  | succ f ih =>
    rw [boLoop] at h
    split at h
    · exact absurd h (by simp)
    · next ops0 res0 hit =>
        split at h
        · next hc =>
            cases h
            exact ⟨boIter_some hit, hc⟩
        · exact ih h

/-- C1.  Every basic-operation instance returned without error has a
solution of the form operator, operands, result where the result is the
left-to-right evaluation of the operator over the operands and has
exactly the requested number of digits. -/
theorem claim1_basicop_correct (bo : basicOperation) (sPos : Nat)
    (sOps : Nat → Nat → Nat) (fuel : Nat) (p : problemJSON)
    (_hop : bo.operator = "+" ∨ bo.operator = "-" ∨ bo.operator = "*" ∨ bo.operator = "/")
    (h : boGen bo sPos sOps fuel = .ok (some p)) :
    ∃ ops res, p.Solution = bo.operator :: (ops.map FormatInt ++ [FormatInt res]) ∧
      boEval bo.operator ops = res ∧ NbDigits res = bo.nbdigitsrslt := by
  unfold boGen at h
  cases hc : boCheck bo with
  | some e => rw [hc] at h; exact absurd h (by simp)
  | none =>
    rw [hc] at h
    by_cases hk : bo.nboperands ≤ 0
    · rw [if_pos hk] at h
      exact absurd h (by simp)
    · rw [if_neg hk] at h
      cases hl : boLoop bo sOps 0 fuel with
      | none => rw [hl] at h; exact absurd h (by simp)
      | some pr =>
        obtain ⟨ops, res⟩ := pr
        rw [hl] at h
        obtain ⟨he, hd, _⟩ := boLoop_some hl
        refine ⟨ops, res, ?_, he.symm, hd⟩
        simp only [Except.ok.injEq, Option.some.injEq] at h
        rw [← h]

/-- Witness for C1: the instance generated by addition of two one-digit
operands with a one-digit result under the all-zero stream. -/
theorem claim1_witness :
    ∃ ops res,
      (⟨"BasicOperation", ["+", "1", "1", "?"], ["+", "1", "1", "2"]⟩ :
        problemJSON).Solution = "+" :: (ops.map FormatInt ++ [FormatInt res]) ∧
      boEval "+" ops = res ∧ NbDigits res = (1 : Int) :=
  claim1_basicop_correct ⟨0, "+", 2, 1, 1⟩ 0 (fun _ _ => 0) 1 _ (Or.inl rfl) rfl

-- ---------------------------------------------------------------------------
-- Claim C6: subtraction feasibility bound
-- ---------------------------------------------------------------------------

theorem boGen_error_iff (bo : basicOperation) (sPos : Nat)
    (sOps : Nat → Nat → Nat) (fuel : Nat) :
    (∃ e, boGen bo sPos sOps fuel = .error e) ↔ ∃ e, boCheck bo = some e := by
  unfold boGen
  cases hc : boCheck bo with
  | some e => simp
  | none =>
    simp only
    constructor
    · rintro ⟨e, he⟩
      by_cases hk : bo.nboperands ≤ 0
      · rw [if_pos hk] at he; cases he
      · rw [if_neg hk] at he
        cases hl : boLoop bo sOps 0 fuel with
        | none => rw [hl] at he; cases he
        | some pr => obtain ⟨a, b⟩ := pr; rw [hl] at he; cases he
    · rintro ⟨e, he⟩
      cases he

/-- C6, counterexample.  The claim puts the feasible result digit counts
for subtraction at [1, NbDigits((k-1) * 10^d)]; for k = 2 operands of
d = 1 digit that interval is [1, 2], so requesting 3 result digits should
be rejected.  The code compares against NbDigits((k-1) * 10^(1+d)) =
NbDigits(100) = 3 instead and accepts the request without an error (the
sampling loop then never succeeds, since no difference of two one-digit
operands has three digits). -/
theorem claim6_counterexample :
    boGen ⟨0, "-", 2, 1, 3⟩ 0 (fun _ _ => 0) 2 = .ok none := rfl

/-- C6, amended.  For operator -, the generator returns a feasibility
error if and only if the requested result digit count lies outside
[1, NbDigits((k-1) * 10^(1+d))]: the exponent in the code is 1 + d, not
d as the claim states. -/
theorem claim6_subtraction_feasibility_amended (bo : basicOperation) (sPos : Nat)
    (sOps : Nat → Nat → Nat) (fuel : Nat) (hop : bo.operator = "-") :
    (∃ e, boGen bo sPos sOps fuel = .error e) ↔
    ¬ (1 ≤ bo.nbdigitsrslt ∧
       bo.nbdigitsrslt ≤ NbDigits ((bo.nboperands - 1) * ipow10 (1 + bo.nbdigitsop))) := by
  rw [boGen_error_iff]
  unfold boCheck
  rw [hop, if_neg (by decide), if_pos rfl]
  by_cases hc : NbDigits ((bo.nboperands - 1) * ipow10 (1 + bo.nbdigitsop)) <
      bo.nbdigitsrslt ∨ 1 > bo.nbdigitsrslt
  · rw [if_pos hc]
    constructor
    · intro _; omega
    · intro _; exact ⟨_, rfl⟩
  · rw [if_neg hc]
    simp only [reduceCtorEq, exists_false, false_iff, not_not]
    omega

/-- Witness for the amended C6 theorem: 5 result digits with 2 operands of
1 digit is outside [1, NbDigits(100)] = [1, 3], and the generator indeed
returns an error. -/
theorem claim6_witness :
    (∃ e, boGen ⟨0, "-", 2, 1, 5⟩ 0 (fun _ _ => 0) 1 = .error e) ↔
    ¬ (1 ≤ (5 : Int) ∧ (5 : Int) ≤ NbDigits ((2 - 1) * ipow10 (1 + 1))) :=
  claim6_subtraction_feasibility_amended ⟨0, "-", 2, 1, 5⟩ 0 (fun _ _ => 0) 1 rfl

-- ---------------------------------------------------------------------------
-- Claim C2: division solution identity
-- ---------------------------------------------------------------------------

theorem divLoop_some {div : division} {q : Int} {sD sR : Nat → Nat}
    {t fuel : Nat} {a b c : Int} (h : divLoop div q sD sR t fuel = some (a, b, c)) :
    0 ≤ a ∧ 0 < b ∧ c = Int.tdiv a b ∧ NbDigits c = q ∧ c ≠ 0 := by
  induction fuel generalizing t with
  | zero => exact absurd h (by simp [divLoop])
  | succ f ih =>
    rw [divLoop] at h
    split at h
    · exact absurd h (by simp)
    · next a0 b0 c0 hit =>
        split at h
        · next hc =>
            cases h
            unfold divIter at hit
            split at hit
            · next dv dr h1 h2 =>
                split at hit
                · cases hit
                · next hz =>
                    cases hit
                    have hna := randN_nonneg h1
                    have hnb := randN_nonneg h2
                    exact ⟨hna, by omega, rfl, hc.1, hc.2⟩
            · cases hit
        · exact ih h

/-- C2.  Every division instance has solution tokens dividend, divisor,
quotient, remainder with dividend = divisor * quotient + remainder and
0 ≤ remainder < divisor. -/
theorem claim2_division_correct (div : division) (sD sR : Nat → Nat) (fuel : Nat)
    (p : problemJSON) (h : divGen div sD sR fuel = .ok (some p)) :
    ∃ a b q r : Int,
      p.Solution = [FormatInt a, FormatInt b, FormatInt q, FormatInt r] ∧
      a = b * q + r ∧ 0 ≤ r ∧ r < b := by
  unfold divGen at h
  cases hl : divLoop div (divClampQ div) sD sR 0 fuel with
  | none => rw [hl] at h; exact absurd h (by simp)
  | some pr =>
    obtain ⟨a, b, c⟩ := pr
    rw [hl] at h
    obtain ⟨hna, hpb, hcq, _, _⟩ := divLoop_some hl
    simp only [Except.ok.injEq, Option.some.injEq] at h
    refine ⟨a, b, c, a - b * c, ?_, by ring, ?_, ?_⟩
    · rw [← h]
    · rw [hcq, Int.tdiv_eq_ediv hna (le_of_lt hpb), ← Int.emod_def]
      exact Int.emod_nonneg a (by omega)
    · rw [hcq, Int.tdiv_eq_ediv hna (le_of_lt hpb), ← Int.emod_def]
      exact Int.emod_lt_of_pos a hpb

/-- Witness for C2: dividend 10, divisor 9, quotient 1, remainder 1. -/
theorem claim2_witness :
    ∃ a b q r : Int,
      (⟨"Division", ["10", "9", "?", "?"], ["10", "9", "1", "1"]⟩ :
        problemJSON).Solution = [FormatInt a, FormatInt b, FormatInt q, FormatInt r] ∧
      a = b * q + r ∧ 0 ≤ r ∧ r < b :=
  claim2_division_correct ⟨2, 1, 1⟩ (fun _ => 0) (fun _ => 8) 1 _ rfl

-- ---------------------------------------------------------------------------
-- Claim C7: division clamps the quotient digit count, never errors
-- ---------------------------------------------------------------------------

/-- C7.  When the requested quotient digit count q is outside
[dv - dr, dv - dr + 1], the division generator does not return an error:
it clamps q to the nearest bound and any instance it produces has a
quotient with the clamped number of digits. -/
theorem claim7_division_clamp (div : division) (sD sR : Nat → Nat) (fuel : Nat)
    (hq : div.nbqdigits < div.nbdvdigits - div.nbdrdigits ∨
          div.nbqdigits > div.nbdvdigits - div.nbdrdigits + 1) :
    (∀ e, divGen div sD sR fuel ≠ .error e) ∧
    (∀ p, divGen div sD sR fuel = .ok (some p) →
      ∃ a b q r : Int,
        p.Solution = [FormatInt a, FormatInt b, FormatInt q, FormatInt r] ∧
        NbDigits q = (if div.nbqdigits < div.nbdvdigits - div.nbdrdigits
                      then div.nbdvdigits - div.nbdrdigits
                      else div.nbdvdigits - div.nbdrdigits + 1)) := by
  constructor
  · intro e he
    unfold divGen at he
    cases hl : divLoop div (divClampQ div) sD sR 0 fuel with
    | none => rw [hl] at he; cases he
    | some pr => obtain ⟨a, b, c⟩ := pr; rw [hl] at he; cases he
  · intro p h
    unfold divGen at h
    cases hl : divLoop div (divClampQ div) sD sR 0 fuel with
    | none => rw [hl] at h; exact absurd h (by simp)
    | some pr =>
      obtain ⟨a, b, c⟩ := pr
      rw [hl] at h
      obtain ⟨_, _, _, hdq, _⟩ := divLoop_some hl
      simp only [Except.ok.injEq, Option.some.injEq] at h
      refine ⟨a, b, c, a - b * c, by rw [← h], ?_⟩
      rw [hdq]
      unfold divClampQ
      split_ifs <;> omega

/-- Witness for C7: requesting 5 quotient digits with a 2-digit dividend
and a 1-digit divisor clamps to 2 digits; the stream draws dividend 99 and
divisor 9, whose quotient 11 indeed has 2 digits. -/
theorem claim7_witness :
    ∃ a b q r : Int,
      (⟨"Division", ["99", "9", "?", "?"], ["99", "9", "11", "0"]⟩ :
        problemJSON).Solution = [FormatInt a, FormatInt b, FormatInt q, FormatInt r] ∧
      NbDigits q = (if (5 : Int) < 2 - 1 then 2 - 1 else 2 - 1 + 1) :=
  (claim7_division_clamp ⟨2, 1, 5⟩ (fun _ => 89) (fun _ => 8) 1
    (Or.inr (by decide))).2 _ rfl

-- ---------------------------------------------------------------------------
-- Claim C4: sequence feasibility and generated run
-- ---------------------------------------------------------------------------

/-- C4.  An infeasible range yields an error and no instance; a feasible
range yields no error, and every generated solution is the ascending run
of nbitems consecutive integers starting at some number1 with the whole
run inside [geq, leq]. -/
theorem claim4_sequence_run (seq : sequence) (s1 s2 : Nat) :
    (1 + seq.leq - seq.geq < seq.nbitems → ∃ e, seqGen seq s1 s2 = .error e) ∧
    (seq.nbitems ≤ 1 + seq.leq - seq.geq → ∀ e, seqGen seq s1 s2 ≠ .error e) ∧
    (∀ p, seqGen seq s1 s2 = .ok (some p) →
      ∃ number1 : Int, seq.geq ≤ number1 ∧ number1 + seq.nbitems - 1 ≤ seq.leq ∧
        1 ≤ seq.nbitems ∧
        p.Solution = (List.range seq.nbitems.toNat).map
          (fun (idx : Nat) => FormatInt (number1 + (idx : Int)))) := by
  refine ⟨?_, ?_, ?_⟩
  · intro hinf
    unfold seqGen
    rw [if_pos hinf]
    exact ⟨_, rfl⟩
  · intro hfeas e
    unfold seqGen
    rw [if_neg (by omega)]
    by_cases hk : seq.nbitems ≤ 0
    · rw [if_pos hk]; exact fun h => by cases h
    · rw [if_neg hk]; exact fun h => by cases h
  · intro p h
    unfold seqGen at h
    by_cases hinf : 1 + seq.leq - seq.geq < seq.nbitems
    · rw [if_pos hinf] at h; cases h
    · rw [if_neg hinf] at h
      by_cases hk : seq.nbitems ≤ 0
      · rw [if_pos hk] at h; exact absurd h (by simp)
      · rw [if_neg hk] at h
        simp only [Except.ok.injEq, Option.some.injEq] at h
        refine ⟨seqNumber1 seq s1, ?_, ?_, by omega, by rw [← h]; rfl⟩
        · unfold seqNumber1
          have := Int.emod_nonneg (s1 : Int)
            (show (2 + seq.leq - seq.nbitems - seq.geq) ≠ 0 by omega)
          omega
        · unfold seqNumber1
          have := Int.emod_lt_of_pos (s1 : Int)
            (show (0 : Int) < 2 + seq.leq - seq.nbitems - seq.geq by omega)
          omega

/-- Witness for C4: three items out of [1, 5] with type first give the run
1, 2, 3. -/
theorem claim4_witness :
    ∃ number1 : Int, (1 : Int) ≤ number1 ∧ number1 + 3 - 1 ≤ 5 ∧ (1 : Int) ≤ 3 ∧
      (⟨"Sequence", ["1", "?", "?"], ["1", "2", "3"]⟩ : problemJSON).Solution =
        (List.range (3 : Int).toNat).map
          (fun (idx : Nat) => FormatInt (number1 + (idx : Int))) :=
  (claim4_sequence_run ⟨1, 3, 1, 5⟩ 0 0).2.2 _ rfl

-- ---------------------------------------------------------------------------
-- Claim C5: sequence masking by position
-- ---------------------------------------------------------------------------

/-- C5, counterexample.  For a two-item sequence of type none with a hint
draw of 1, the chosen position coincides with the last position and the
case pos arm of the switch fires before the case nbitems - 1 arm: the last
token is shown although the type is neither last nor both, contradicting
the claimed by-position rule. -/
theorem claim5_counterexample :
    seqGen ⟨SEQNONE, 2, 1, 2⟩ 0 1 =
      .ok (some ⟨"Sequence", ["?", "2"], ["1", "2"]⟩) ∧
    (["?", "2"] : List String).getD 1 "" ≠ "?" :=
  ⟨rfl, by decide⟩

/-- C5, amended.  For sequences of at least three items (so that the
chosen position is interior) and a valid type, the masking follows
position exactly as the claim states: position 0 shown iff type is first
or both, the last position shown iff type is last or both, the chosen
interior position shown iff type is none, everything else masked.  For
one or two items the chosen position can coincide with an endpoint and
the switch arm order decides instead. -/
theorem claim5_sequence_mask_amended (seq : sequence) (s1 s2 : Nat) (p : problemJSON)
    (h3 : 3 ≤ seq.nbitems) (ht : 0 ≤ seq.seqtype ∧ seq.seqtype ≤ 3)
    (h : seqGen seq s1 s2 = .ok (some p)) :
    ∃ pos : Nat, 1 ≤ pos ∧ (pos : Int) ≤ seq.nbitems - 2 ∧
      ∀ idx : Nat, idx < seq.nbitems.toNat →
        p.Args.getD idx "" =
          (if seqShownSpec seq.seqtype pos seq.nbitems.toNat idx
           then p.Solution.getD idx "" else "?") := by
  unfold seqGen at h
  by_cases hinf : 1 + seq.leq - seq.geq < seq.nbitems
  · rw [if_pos hinf] at h; cases h
  · rw [if_neg hinf, if_neg (by omega)] at h
    simp only [Except.ok.injEq, Option.some.injEq] at h
    have hpos : seqPos seq s2 = 1 + (s2 : Int) % (seq.nbitems - 2) := by
      unfold seqPos
      rw [if_neg (by omega)]
    have hm0 : 0 ≤ (s2 : Int) % (seq.nbitems - 2) :=
      Int.emod_nonneg (s2 : Int) (by omega)
    have hm1 : (s2 : Int) % (seq.nbitems - 2) < seq.nbitems - 2 :=
      Int.emod_lt_of_pos (s2 : Int) (by omega)
    refine ⟨(seqPos seq s2).toNat, by omega, by omega, ?_⟩
    intro idx hidx
    have hposc : ((seqPos seq s2).toNat : Int) = seqPos seq s2 := by omega
    rw [← h]
    show (seqArgs seq s1 s2).getD idx "" = _
    unfold seqArgs
    rw [getD_map_range _ "" hidx]
    by_cases h0 : idx = 0
    · rw [if_pos h0]
      have hns : ¬ seqShownSpec seq.seqtype (seqPos seq s2).toNat seq.nbitems.toNat 0 ↔
          (seq.seqtype = SEQNONE ∨ seq.seqtype = SEQLAST) := by
        unfold seqShownSpec SEQNONE SEQFIRST SEQLAST SEQBOTH
        constructor
        · intro hn
          by_contra hcon
          have h1 : seq.seqtype = 1 ∨ seq.seqtype = 3 := by omega
          exact hn (Or.inl ⟨rfl, h1⟩)
        · rintro hor (⟨_, hx⟩ | ⟨hl, _⟩ | ⟨hp, hnone⟩)
          · omega
          · omega
          · omega
      subst h0
      by_cases hc : seq.seqtype = SEQNONE ∨ seq.seqtype = SEQLAST
      · rw [if_pos hc, if_neg (hns.mpr hc)]
      · rw [if_neg hc, if_pos (by
          unfold seqShownSpec SEQNONE SEQFIRST SEQLAST SEQBOTH at *
          left
          exact ⟨rfl, by omega⟩)]
    · rw [if_neg h0]
      by_cases hp : (idx : Int) = seqPos seq s2
      · rw [if_pos hp]
        have hip : idx = (seqPos seq s2).toNat := by omega
        have hnl : idx ≠ seq.nbitems.toNat - 1 := by omega
        by_cases hc : seq.seqtype = SEQNONE
        · rw [if_pos hc, if_pos (by
            unfold seqShownSpec
            right; right
            exact ⟨hip, hc⟩)]
        · rw [if_neg hc, if_neg (by
            unfold seqShownSpec SEQNONE SEQFIRST SEQLAST SEQBOTH at *
            rintro (⟨hx, _⟩ | ⟨hx, hy⟩ | ⟨_, hx⟩) <;> omega)]
      · rw [if_neg hp]
        by_cases hl : idx = seq.nbitems.toNat - 1
        · rw [if_pos hl]
          by_cases hc : seq.seqtype = SEQNONE ∨ seq.seqtype = SEQFIRST
          · rw [if_pos hc, if_neg (by
              unfold seqShownSpec SEQNONE SEQFIRST SEQLAST SEQBOTH at *
              rintro (⟨hx, _⟩ | ⟨_, hy⟩ | ⟨hx, hz⟩) <;> omega)]
          · rw [if_neg hc, if_pos (by
              unfold seqShownSpec SEQNONE SEQFIRST SEQLAST SEQBOTH at *
              right; left
              exact ⟨hl, by omega⟩)]
        · rw [if_neg hl, if_neg (by
            unfold seqShownSpec SEQNONE SEQFIRST SEQLAST SEQBOTH at *
            rintro (⟨hx, _⟩ | ⟨hx, _⟩ | ⟨hx, _⟩) <;> omega)]

/-- Witness for the amended C5 theorem: four items of type none out of
[0, 9] under the zero streams show exactly the interior position 1. -/
theorem claim5_witness :
    ∃ pos : Nat, 1 ≤ pos ∧ (pos : Int) ≤ 4 - 2 ∧
      ∀ idx : Nat, idx < (4 : Int).toNat →
        (⟨"Sequence", ["?", "1", "?", "?"], ["0", "1", "2", "3"]⟩ :
          problemJSON).Args.getD idx "" =
          (if seqShownSpec 0 pos (4 : Int).toNat idx
           then (⟨"Sequence", ["?", "1", "?", "?"], ["0", "1", "2", "3"]⟩ :
             problemJSON).Solution.getD idx "" else "?") :=
  claim5_sequence_mask_amended ⟨0, 4, 0, 9⟩ 0 0 _ (by decide) (by decide) rfl

-- ---------------------------------------------------------------------------
-- Claim C3: masking shape of every generator
-- ---------------------------------------------------------------------------

theorem maskShapeOK_set (t : String) (l : List String) (m : Nat) :
    maskShapeOK ⟨t, l.set m "?", l⟩ := by
  refine ⟨List.length_set l m "?", ?_⟩
  intro i hi hne
  have hne2 : (l.set m "?").getD i "" ≠ "?" := hne
  show (l.set m "?").getD i "" = l.getD i ""
  rw [List.getD_eq_getElem?_getD, List.getD_eq_getElem?_getD]
  by_cases him : m = i
  · subst him
    by_cases hlt : m < l.length
    · rw [List.getD_eq_getElem?_getD, List.getElem?_set_self hlt] at hne2
      exact absurd rfl hne2
    · rw [List.set_eq_of_length_le (by omega)]
  · rw [List.getElem?_set_ne him]

theorem maskShapeOK_mapRange (t : String) (n : Nat) (sol : List String)
    (f : Nat → String) (hlen : sol.length = n)
    (hf : ∀ i, i < n → f i ≠ "?" → f i = sol.getD i "") :
    maskShapeOK ⟨t, (List.range n).map f, sol⟩ := by
  refine ⟨by rw [length_map_range, hlen], ?_⟩
  intro i hi hne
  rw [length_map_range] at hi
  rw [getD_map_range f "" hi] at hne ⊢
  exact hf i hi hne

/-- C3.  For every instance returned without error by any of the five
generators, args and solution have the same length and every args token
other than the mask marker equals the solution token at its position. -/
theorem claim3_mask_shape :
    (∀ bo sPos sOps fuel p, boGen bo sPos sOps fuel = .ok (some p) → maskShapeOK p) ∧
    (∀ div sD sR fuel p, divGen div sD sR fuel = .ok (some p) → maskShapeOK p) ∧
    (∀ seq s1 s2 p, seqGen seq s1 s2 = .ok (some p) → maskShapeOK p) ∧
    (∀ mt sF sI sS sM p, mtGen mt sF sI sS sM = some p → maskShapeOK p) ∧
    (∀ mo sOp1 sOp2 sm1 sm2 sm3 fuel p,
      moGen mo sOp1 sOp2 sm1 sm2 sm3 fuel = .ok (some p) → maskShapeOK p) := by
  refine ⟨?_, ?_, ?_, ?_, ?_⟩
  · intro bo sPos sOps fuel p h
    unfold boGen at h
    split at h
    · cases h
    · split at h
      · exact absurd h (by simp)
      · split at h
        · exact absurd h (by simp)
        · next ops res hl =>
            split at h <;>
              (simp only [Except.ok.injEq, Option.some.injEq] at h;
               rw [← h]; exact maskShapeOK_set _ _ _)
  · intro div sD sR fuel p h
    unfold divGen at h
    split at h
    · exact absurd h (by simp)
    · next a b c hl =>
        simp only [Except.ok.injEq, Option.some.injEq] at h
        rw [← h]
        refine ⟨rfl, ?_⟩
        intro i hi hne
        simp only [List.length_cons, List.length_nil] at hi
        interval_cases i <;> simp_all [List.getD]
  · intro seq s1 s2 p h
    unfold seqGen at h
    split at h
    · cases h
    · split at h
      · exact absurd h (by simp)
      · simp only [Except.ok.injEq, Option.some.injEq] at h
        rw [← h]
        show maskShapeOK ⟨"Sequence", seqArgs seq s1 s2, seqSol seq s1⟩
        have hlen : (seqSol seq s1).length = seq.nbitems.toNat := by
          simp [seqSol]
        unfold seqArgs
        apply maskShapeOK_mapRange _ _ _ _ hlen
        intro i hi hne
        dsimp only at hne ⊢
        split_ifs at hne ⊢ <;> first | rfl | exact absurd rfl hne
  · intro mt sF sI sS sM p h
    unfold mtGen at h
    split at h
    · cases h
    · by_cases h1 : 1 + mt.leq - mt.geq < 0
      · rw [if_pos h1] at h; cases h
      · rw [if_neg h1] at h
        by_cases h2 : mt.sorted = true
        · rw [if_pos h2] at h
          simp only [Option.some.injEq] at h
          rw [← h]
          unfold mtArgs
          apply maskShapeOK_mapRange _ _ _ _ rfl
          intro i hi hne
          dsimp only at hne ⊢
          by_cases h0 : i = 0
          · subst h0
            rw [if_pos rfl]
          · rw [if_neg h0] at hne ⊢
            split_ifs at hne ⊢ <;> first | rfl | exact absurd rfl hne
        · rw [if_neg h2] at h
          by_cases h3 : 1 + mt.leq - mt.geq < 10
          · rw [if_pos h3] at h; cases h
          · rw [if_neg h3] at h
            simp only [Option.some.injEq] at h
            rw [← h]
            unfold mtArgs
            apply maskShapeOK_mapRange _ _ _ _ rfl
            intro i hi hne
            dsimp only at hne ⊢
            by_cases h0 : i = 0
            · subst h0
              rw [if_pos rfl]
            · rw [if_neg h0] at hne ⊢
              split_ifs at hne ⊢ <;> first | rfl | exact absurd rfl hne
  · intro mo sOp1 sOp2 sm1 sm2 sm3 fuel p h
    unfold moGen at h
    split at h
    · cases h
    · split at h
      · exact absurd h (by simp)
      · split at h
        · simp only [Except.ok.injEq, Option.some.injEq] at h
          rw [← h]
          unfold moArgs
          apply maskShapeOK_mapRange _ _ _ _ rfl
          intro i hi hne
          dsimp only at hne ⊢
          split_ifs at hne ⊢ <;> first | rfl | exact absurd rfl hne
        · exact absurd h (by simp)

/-- Witness for C3: the mask-shape invariant of the concrete basic
operation instance generated in the C1 witness. -/
theorem claim3_witness :
    maskShapeOK ⟨"BasicOperation", ["+", "1", "1", "?"], ["+", "1", "1", "2"]⟩ :=
  claim3_mask_shape.1 ⟨0, "+", 2, 1, 1⟩ 0 (fun _ _ => 0) 1 _ rfl

-- ---------------------------------------------------------------------------
-- Claim C10: mask-loop termination
-- ---------------------------------------------------------------------------

theorem maskStep_length_pos (nbdigits : Int) (s : Nat → Nat) (acc : List Nat)
    (k : Nat) : 1 ≤ (maskStep nbdigits s acc k).length := by
  unfold maskStep
  cases acc with
  | nil => simp [FindInt]
  | cons a t => split <;> simp

theorem maskLoopAux_none_of_nonpos {nbdigits nbmasked : Int} (hm : nbmasked ≤ 0)
    (s : Nat → Nat) : ∀ (fuel : Nat) (acc : List Nat) (k : Nat),
    maskLoopAux nbdigits nbmasked s acc k fuel = none := by
  intro fuel
  induction fuel with
  | zero => intro acc k; rfl
  | succ f ih =>
    intro acc k
    rw [maskLoopAux]
    have hlen := maskStep_length_pos nbdigits s acc k
    rw [if_neg (by omega)]
    exact ih _ _

theorem maskLoopAux_id_some (nbdigits nbmasked : Int) (hd : 1 ≤ nbdigits)
    (hmd : nbmasked ≤ nbdigits) :
    ∀ (m j : Nat), 1 ≤ m → (j : Int) + (m : Int) = nbmasked →
      ∃ l, maskLoopAux nbdigits nbmasked (fun k => k) (List.range j) j m = some l := by
  intro m
  induction m with
  | zero => intro j h1; omega
  | succ mm ih =>
    intro j _ hsum
    have hjd : j < nbdigits.toNat := by omega
    have hfind : FindInt (j % nbdigits.toNat) (List.range j) = false := by
      rw [Nat.mod_eq_of_lt hjd]
      simp [FindInt]
    have hstep : maskStep nbdigits (fun k => k) (List.range j) j = List.range (j + 1) := by
      unfold maskStep
      rw [hfind]
      simp [Nat.mod_eq_of_lt hjd, List.range_succ]
    rw [maskLoopAux, hstep]
    by_cases hlast : mm = 0
    · subst hlast
      rw [if_pos (by simp; omega)]
      exact ⟨_, rfl⟩
    · rw [if_neg (by simp; omega)]
      exact ih (j + 1) (by omega) (by push_cast; omega)

/-- C10.  Given a positive digit count bounding the mask count from above,
the mask-position loop can terminate if and only if the configured mask
count is at least 1 (the loop appends before testing its exit condition,
so with a mask count of 0 the accumulated list is never empty and the
loop never exits for any random stream); consequently a mystery operation
whose first-operand mask count is 0 never yields an instance. -/
theorem claim10_maskloop_termination :
    (∀ nbdigits nbmasked : Int, 1 ≤ nbdigits → nbmasked ≤ nbdigits →
      ((∃ s fuel l, maskLoop nbdigits nbmasked s fuel = some l) ↔ 1 ≤ nbmasked)) ∧
    (∀ mo sOp1 sOp2 sm1 sm2 sm3 fuel p, mo.nbmasked1 = 0 →
      moGen mo sOp1 sOp2 sm1 sm2 sm3 fuel ≠ .ok (some p)) := by
  constructor
  · intro nd nm hd hmd
    constructor
    · rintro ⟨s, fuel, l, hl⟩
      by_contra hneg
      unfold maskLoop at hl
      rw [if_neg (by omega), maskLoopAux_none_of_nonpos (by omega) s fuel [] 0] at hl
      cases hl
    · intro hm
      refine ⟨fun k => k, nm.toNat, ?_⟩
      unfold maskLoop
      rw [if_neg (by omega)]
      have h0 : (List.range 0) = ([] : List Nat) := rfl
      rw [← h0]
      exact maskLoopAux_id_some nd nm hd hmd nm.toNat 0 (by omega) (by omega)
  · intro mo sOp1 sOp2 sm1 sm2 sm3 fuel p h0 hcon
    have hnone : maskLoop mo.nbdigits1 mo.nbmasked1 sm1 fuel = none := by
      unfold maskLoop
      by_cases hd1 : mo.nbdigits1 ≤ 0
      · rw [if_pos hd1]
      · rw [if_neg hd1]
        exact maskLoopAux_none_of_nonpos (by omega) sm1 fuel [] 0
    unfold moGen at hcon
    split at hcon
    · cases hcon
    · split at hcon
      · exact absurd hcon (by simp)
      · split at hcon
        · next m1 m2 m3 hm1 hm2 hm3 =>
            rw [hnone] at hm1
            cases hm1
        · exact absurd hcon (by simp)

/-- Witness for C10 at digit count 3 and mask count 2: termination is
possible, matching 1 ≤ 2. -/
theorem claim10_witness :
    (∃ s fuel l, maskLoop 3 2 s fuel = some l) ↔ 1 ≤ (2 : Int) :=
  claim10_maskloop_termination.1 3 2 (by decide) (by decide)

-- ---------------------------------------------------------------------------
-- Claim C9: the multiplication-table shuffle acts on fixed indices 0..9
-- ---------------------------------------------------------------------------

theorem cons_set_perm : ∀ (t : List Nat) (m : Nat) (x : Nat), m < t.length →
    List.Perm (t.getD m 0 :: t.set m x) (x :: t) := by
  intro t
  induction t with
  | nil => intro m x h; simp at h
  | cons a r ih =>
    intro m x h
    cases m with
    | zero => exact List.Perm.swap x a r
    | succ mm =>
      have hm : mm < r.length := by simpa using h
      show List.Perm (r.getD mm 0 :: a :: r.set mm x) (x :: a :: r)
      exact ((List.Perm.swap a (r.getD mm 0) (r.set mm x)).trans
        ((ih mm x hm).cons a)).trans (List.Perm.swap x a r)

theorem set_getD_self (l : List Nat) (i : Nat) : l.set i (l.getD i 0) = l := by
  apply List.ext_getElem?
  intro n
  by_cases hin : i = n
  · subst hin
    by_cases hlt : i < l.length
    · rw [List.getElem?_set_self hlt, List.getD_eq_getElem?_getD,
        List.getElem?_eq_getElem hlt]
      rfl
    · rw [List.set_eq_of_length_le (by omega)]
  · rw [List.getElem?_set_ne hin]

theorem swapList_perm_lt : ∀ (i : Nat), ∀ (j : Nat) (l : List Nat), i < j →
    j < l.length → List.Perm (swapList l i j) l := by
  intro i
  induction i with
  | zero =>
    intro j l hij hjl
    cases l with
    | nil => simp at hjl
    | cons a t =>
      cases j with
      | zero => omega
      | succ jj =>
        show List.Perm (t.getD jj 0 :: t.set jj a) (a :: t)
        exact cons_set_perm t jj a (by simpa using hjl)
  | succ ii ih =>
    intro j l hij hjl
    cases l with
    | nil => simp at hjl
    | cons a t =>
      cases j with
      | zero => omega
      | succ jj =>
        show List.Perm (a :: swapList t ii jj) (a :: t)
        exact (ih jj t (by omega) (by simpa using hjl)).cons a

theorem swapList_perm (l : List Nat) (i j : Nat) (hi : i < l.length)
    (hj : j < l.length) : List.Perm (swapList l i j) l := by
  rcases lt_trichotomy i j with h | h | h
  · exact swapList_perm_lt i j l h hj
  · subst h
    unfold swapList
    rw [List.set_set, set_getD_self]
  · have hcomm : swapList l i j = swapList l j i := by
      unfold swapList
      rw [List.set_comm _ _ _ (by omega)]
    rw [hcomm]
    exact swapList_perm_lt j i l h hi

theorem shuffleAux_perm (s : Nat → Nat) : ∀ (k : Nat) (l : List Nat), k < l.length →
    List.Perm (shuffleAux s k l) l := by
  intro k
  induction k with
  | zero => intro l _; exact List.Perm.refl l
  | succ kk ih =>
    intro l hk
    rw [shuffleAux]
    have hjlt : s (kk + 1) % (kk + 2) < kk + 2 := Nat.mod_lt _ (by omega)
    have hswap := swapList_perm l (kk + 1) (s (kk + 1) % (kk + 2)) hk (by omega)
    have hlen : (swapList l (kk + 1) (s (kk + 1) % (kk + 2))).length = l.length := by
      unfold swapList
      simp
    exact (ih _ (by omega)).trans hswap

theorem shuffle10_perm (s : Nat → Nat) : List.Perm (shuffle10 s) (List.range 10) :=
  shuffleAux_perm s 9 (List.range 10) (by simp)

theorem mtBase_length (mt : multiplicationTable) (factor : Int) (sI : Nat → Nat) :
    (mtBase mt factor sI).length = 1 + 3 * (1 + mt.leq - mt.geq).toNat := by
  have h : ∀ (l : List Nat), (l.flatMap (fun (idx : Nat) =>
      if mt.inv ∧ sI idx % 100 < 50 then
        [FormatInt (mt.geq + (idx : Int)), FormatInt factor,
         FormatInt (factor * (mt.geq + (idx : Int)))]
      else
        [FormatInt factor, FormatInt (mt.geq + (idx : Int)),
         FormatInt (factor * (mt.geq + (idx : Int)))])).length = 3 * l.length := by
    intro l
    induction l with
    | nil => rfl
    | cons a t iht =>
      rw [List.flatMap_cons, List.length_append, iht]
      split <;> simp <;> omega
  unfold mtBase
  rw [List.length_cons, h, List.length_range]
  omega

theorem mtPermute_length (ids : List Nat) (l : List String) :
    (mtPermute ids l).length = l.length := by
  unfold mtPermute
  exact length_map_range _ _

theorem mtPermute_getD (ids : List Nat) (l : List String) {idx : Nat}
    (h : idx < l.length) :
    (mtPermute ids l).getD idx "" =
      if 1 ≤ idx ∧ idx < 31 then
        l.getD (1 + 3 * ids.getD ((idx - 1) / 3) 0 + (idx - 1) % 3) ""
      else l.getD idx "" := by
  unfold mtPermute
  exact getD_map_range _ "" h

theorem mtPermute_row (ids : List Nat) (l : List String) (i : Nat) (hi : i < 10)
    (hlen : 31 ≤ l.length) :
    mtRow (mtPermute ids l) i = mtRow l (ids.getD i 0) := by
  unfold mtRow
  rw [mtPermute_getD ids l (show 1 + 3 * i < l.length by omega),
    mtPermute_getD ids l (show 2 + 3 * i < l.length by omega),
    mtPermute_getD ids l (show 3 + 3 * i < l.length by omega)]
  rw [if_pos (by omega), if_pos (by omega), if_pos (by omega)]
  have e1 : (1 + 3 * i - 1) / 3 = i := by omega
  have e2 : (2 + 3 * i - 1) / 3 = i := by omega
  have e3 : (3 + 3 * i - 1) / 3 = i := by omega
  have f1 : (1 + 3 * i - 1) % 3 = 0 := by omega
  have f2 : (2 + 3 * i - 1) % 3 = 1 := by omega
  have f3 : (3 + 3 * i - 1) % 3 = 2 := by omega
  rw [e1, e2, e3, f1, f2, f3]
  have g1 : 1 + 3 * ids.getD i 0 + 0 = 1 + 3 * ids.getD i 0 := by omega
  have g2 : 1 + 3 * ids.getD i 0 + 1 = 2 + 3 * ids.getD i 0 := by omega
  have g3 : 1 + 3 * ids.getD i 0 + 2 = 3 + 3 * ids.getD i 0 := by omega
  rw [g1, g2, g3]

theorem mtPermute_row_high (ids : List Nat) (l : List String) (j : Nat)
    (hj : 10 ≤ j) (hlen : 3 + 3 * j < l.length) :
    mtRow (mtPermute ids l) j = mtRow l j := by
  unfold mtRow
  rw [mtPermute_getD ids l (show 1 + 3 * j < l.length by omega),
    mtPermute_getD ids l (show 2 + 3 * j < l.length by omega),
    mtPermute_getD ids l (show 3 + 3 * j < l.length by omega)]
  rw [if_neg (by omega), if_neg (by omega), if_neg (by omega)]

/-- C9.  With sorted = false the shuffle always permutes the fixed indices
0..9: fewer than 10 rows make the generator panic (no instance, no
error), and any instance produced carries a solution whose first 10 rows
are a permutation of the first 10 rows of the unshuffled solution while
every later row is unchanged. -/
theorem claim9_mt_shuffle (mt : multiplicationTable) (sF : Nat) (sI sS sM : Nat → Nat)
    (hs : mt.sorted = false) :
    (1 + mt.leq - mt.geq < 10 → mtGen mt sF sI sS sM = none) ∧
    (∀ p, mtGen mt sF sI sS sM = some p →
      ∃ factor, RandN mt.nbdigits sF = some factor ∧
        ∃ ids : List Nat, List.Perm ids (List.range 10) ∧
          (∀ i : Nat, i < 10 →
            mtRow p.Solution i = mtRow (mtBase mt factor sI) (ids.getD i 0)) ∧
          (∀ j : Nat, 10 ≤ j → (j : Int) < 1 + mt.leq - mt.geq →
            mtRow p.Solution j = mtRow (mtBase mt factor sI) j)) := by
  constructor
  · intro hrows
    unfold mtGen
    cases hf : RandN mt.nbdigits sF with
    | none => rfl
    | some factor =>
      simp only
      by_cases h1 : 1 + mt.leq - mt.geq < 0
      · rw [if_pos h1]
      · rw [if_neg h1, hs]
        simp only [Bool.false_eq_true, if_false]
        rw [if_pos hrows]
  · intro p h
    unfold mtGen at h
    split at h
    · cases h
    · next factor hf =>
        by_cases h1 : 1 + mt.leq - mt.geq < 0
        · rw [if_pos h1] at h; cases h
        · rw [if_neg h1, hs] at h
          simp only [Bool.false_eq_true, if_false] at h
          by_cases h3 : 1 + mt.leq - mt.geq < 10
          · rw [if_pos h3] at h; cases h
          · rw [if_neg h3] at h
            simp only [Option.some.injEq] at h
            have hrows10 : 10 ≤ (1 + mt.leq - mt.geq).toNat := by omega
            have hblen : 31 ≤ (mtBase mt factor sI).length := by
              rw [mtBase_length]
              omega
            refine ⟨factor, hf, shuffle10 sS, shuffle10_perm sS, ?_, ?_⟩
            · intro i hi
              rw [← h]
              exact mtPermute_row (shuffle10 sS) (mtBase mt factor sI) i hi hblen
            · intro j hj hjr
              rw [← h]
              apply mtPermute_row_high (shuffle10 sS) (mtBase mt factor sI) j hj
              rw [mtBase_length]
              omega

/-- Witness for C9: a table over the empty row range [1, 0] with
sorted = false has 0 rows and the generator panics in the shuffle,
yielding no instance. -/
theorem claim9_witness :
    mtGen ⟨0, 1, 1, 0, false, false⟩ 0 (fun _ => 0) (fun _ => 0) (fun _ => 0) = none :=
  (claim9_mt_shuffle ⟨0, 1, 1, 0, false, false⟩ 0 (fun _ => 0) (fun _ => 0)
    (fun _ => 0) rfl).1 (by decide)

end Mathprob
